import Mathlib

/-
  Verification development for the x-ray pipeline tracing system.

  The embedding follows the source:
  * `xray-sdk/src/index.ts` — trace builder (`Run`, `Step`), sampling policy
    (`Step.sampleCandidates`), transport (`Run.send`).
  * the API route file — `POST /runs` ingestion handler, `POST /runs/query`
    analytical handler, over the relational schema `runs`/`steps`/`candidates`.

  Conventions of the embedding:
  * JavaScript numbers are modelled as exact rationals (`ℚ`); lengths and
    timestamps as `Nat`.  `Date` values become abstract `now : Nat` ticks
    supplied by the caller.
  * Candidate payloads are a type parameter `α`; JavaScript reference
    equality (`Array.prototype.includes` on objects) is modelled by
    `DecidableEq α` on identity tokens.
  * `uuid()` values are supplied by the caller as explicit `id` arguments.
  * Fallible effects (JSON serialization, `fetch`, SQL inserts) are driven
    by explicit failure oracles and return `Except`.
-/

namespace XRay

/-- Step type tag, from `StepData["stepType"]`. -/
inductive StepType where
  | llm
  | api
  | filter
  | rank
  | transform
deriving DecidableEq, Repr

/-- Candidate disposition, from `CandidateData["status"]`. -/
inductive CandidateStatus where
  | accepted
  | rejected
  | filtered_out
deriving DecidableEq, Repr

/-- Run lifecycle status, from the `Run.status` field. -/
inductive RunStatus where
  | running
  | completed
  | failed
deriving DecidableEq, Repr

/-- `SamplingConfig` from the SDK. -/
structure SamplingConfig where
  keepAllOutputs : Bool
  keepThresholdCandidates : Nat
  sampleRate : ℚ
deriving DecidableEq, Repr

/-- The default sampling configuration installed by the `XRaySDK` constructor. -/
def defaultSampling : SamplingConfig :=
  { keepAllOutputs := true, keepThresholdCandidates := 10, sampleRate := 1 / 100 }

/-- `CandidateData` from the SDK: one sampled candidate. -/
structure CandidateData (α : Type) where
  data : α
  status : CandidateStatus
  score : Option ℚ := none
  rejectionReason : Option String := none
  rejectionFilter : Option String := none
deriving DecidableEq, Repr

/-- `FilterData` from the SDK: one recorded filter application. -/
structure FilterData where
  filterName : String
  filterType : String
  parameters : Option (List (String × String)) := none
  candidateBefore : Nat
  candidatesAfter : Nat
  eliminationRate : ℚ
deriving DecidableEq, Repr

/-- The `Step` class state (fields of `class Step`). -/
structure Step (α : Type) where
  id : String
  runId : String
  stepName : String
  stepType : StepType
  stepIndex : Nat
  startedAt : Nat
  completedAt : Option Nat := none
  input : Option α := none
  output : Option α := none
  candidatesIn : Option Nat := none
  candidatesOut : Option Nat := none
  candidates : List (CandidateData α) := []
  reasoning : Option String := none
  filtersApplied : List FilterData := []
  metadata : List (String × String) := []
  sampling : SamplingConfig
deriving DecidableEq, Repr

/-- `Step.sampleCandidates` from the SDK: the sampling policy engine.
`candidates.slice(0, Math.max(sampleSize, 5))` is `List.take` of that bound,
with `Math.ceil` as `Int.ceil` over exact rationals. -/
def Step.sampleCandidates (s : Step α) (candidates : List α)
    (status : CandidateStatus) (rejectionFilter : Option String) :
    List (CandidateData α) :=
  if status = CandidateStatus.accepted ∧ s.sampling.keepAllOutputs then
    candidates.map fun c => { data := c, status := status }
  else if status = CandidateStatus.rejected then
    let sampleSize : ℤ := ⌈(candidates.length : ℚ) * s.sampling.sampleRate⌉
    let sampled := candidates.take (max sampleSize 5).toNat
    sampled.map fun c => { data := c, status := status, rejectionFilter := rejectionFilter }
  else
    candidates.map fun c => { data := c, status := status }

/-- `Step.recordInput`. -/
def Step.recordInput (s : Step α) (input : α) : Step α :=
  { s with input := some input }

/-- `Step.recordOutput`: also stamps completion time. -/
def Step.recordOutput (s : Step α) (output : α) (now : Nat) : Step α :=
  { s with output := some output, completedAt := some now }

/-- `Step.recordCandidates`: routes through the sampling policy; when the
disposition is `accepted` it also stores the pre-sampling count as
`candidatesOut`. -/
def Step.recordCandidates (s : Step α) (candidates : List α)
    (status : CandidateStatus) : Step α :=
  let sampled := s.sampleCandidates candidates status none
  let s := { s with candidates := s.candidates ++ sampled }
  if status = CandidateStatus.accepted then
    { s with candidatesOut := some candidates.length }
  else
    s

/-- The rejected subset computed by `Step.recordFiltering`:
`candidatesIn.filter((c) => !candidatesOut.includes(c))`, where `includes`
on object elements compares by identity. -/
def rejectedCandidates [DecidableEq α] (before after : List α) : List α :=
  before.filter fun c => decide (c ∉ after)

/-- `Step.recordFiltering`: records counts, the filter application with its
elimination rate, and the sampled rejected/accepted candidates. -/
def Step.recordFiltering [DecidableEq α] (s : Step α)
    (candidatesIn candidatesOut : List α) (filterName filterType : String)
    (parameters : Option (List (String × String))) : Step α :=
  let eliminationRate : ℚ :=
    1 - (candidatesOut.length : ℚ) / (candidatesIn.length : ℚ)
  let fd : FilterData :=
    { filterName := filterName, filterType := filterType, parameters := parameters,
      candidateBefore := candidatesIn.length, candidatesAfter := candidatesOut.length,
      eliminationRate := eliminationRate }
  let rejected := rejectedCandidates candidatesIn candidatesOut
  let rejectedSampled :=
    s.sampleCandidates rejected CandidateStatus.rejected (some filterName)
  let accepted := s.sampleCandidates candidatesOut CandidateStatus.accepted none
  { s with
    candidatesIn := some candidatesIn.length,
    candidatesOut := some candidatesOut.length,
    filtersApplied := s.filtersApplied ++ [fd],
    candidates := s.candidates ++ rejectedSampled ++ accepted }

/-- `Step.recordLLMDecision`: stores reasoning, forces type `llm`, optionally
overwrites `candidatesOut`. -/
def Step.recordLLMDecision (s : Step α) (reasoning : String)
    (candidatesOut : Option Nat) : Step α :=
  let s := { s with reasoning := some reasoning, stepType := StepType.llm }
  match candidatesOut with
  | some n => { s with candidatesOut := some n }
  | none => s

/-- Shallow merge of string-keyed metadata maps: keys of `new` win
(JavaScript object spread `{ ...old, ...new }`). -/
def mergeMeta (old new : List (String × String)) : List (String × String) :=
  old.filter (fun p => (new.lookup p.1).isNone) ++ new

/-- `Step.setMetadata`: shallow merge, later keys win. -/
def Step.setMetadata (s : Step α) (m : List (String × String)) : Step α :=
  { s with metadata := mergeMeta s.metadata m }

end XRay

namespace XRay

/-- The `Run` class state (fields of `class Run`). -/
structure Run (α : Type) where
  id : String
  pipelineName : String
  input : α
  output : Option α := none
  steps : List (Step α) := []
  startedAt : Nat
  completedAt : Option Nat := none
  status : RunStatus := RunStatus.running
  apiUrl : String
  sampling : SamplingConfig
  metadata : List (String × String) := []
deriving DecidableEq, Repr

/-- `XRaySDK.startRun` / the `Run` constructor. -/
def startRun (apiUrl : String) (sampling : SamplingConfig)
    (pipelineName : String) (input : α) (metadata : List (String × String))
    (id : String) (now : Nat) : Run α :=
  { id := id, pipelineName := pipelineName, input := input,
    startedAt := now, apiUrl := apiUrl, sampling := sampling,
    metadata := metadata }

/-- `Run.addStep`: creates a step whose index is the current step count and
appends it. -/
def Run.addStep (r : Run α) (stepName : String) (stepType : StepType)
    (id : String) (now : Nat) : Run α × Step α :=
  let step : Step α :=
    { id := id, runId := r.id, stepName := stepName, stepType := stepType,
      stepIndex := r.steps.length, startedAt := now, sampling := r.sampling }
  ({ r with steps := r.steps ++ [step] }, step)

/-- State change performed by `Run.complete` (lines setting `output`,
`completedAt`, `status`; the transport dispatch is modelled separately). -/
def Run.complete (r : Run α) (output : α) (now : Nat) : Run α :=
  { r with output := some output, completedAt := some now,
           status := RunStatus.completed }

/-- State change performed by `Run.fail`. -/
def Run.fail (r : Run α) (errMsg : String) (now : Nat) : Run α :=
  { r with completedAt := some now, status := RunStatus.failed,
           metadata := mergeMeta r.metadata [("error", errMsg)] }

end XRay

namespace XRay

/-! Mutating operations on a `Run`, for stating lifecycle properties. -/

/-- One mutating call on a `Run` object. -/
inductive RunOp (α : Type) where
  | complete (output : α) (now : Nat)
  | fail (errMsg : String) (now : Nat)
  | addStep (stepName : String) (stepType : StepType) (id : String) (now : Nat)
deriving DecidableEq, Repr

/-- Apply one mutating call. -/
def Run.applyOp (r : Run α) : RunOp α → Run α
  | RunOp.complete o t => r.complete o t
  | RunOp.fail m t => r.fail m t
  | RunOp.addStep n ty id t => (r.addStep n ty id t).1

/-- Apply a sequence of mutating calls, in order. -/
def Run.applyOps (r : Run α) (ops : List (RunOp α)) : Run α :=
  ops.foldl Run.applyOp r

/-- Whether a call is one of the two terminal transitions. -/
def RunOp.isTerminal : RunOp α → Bool
  | RunOp.complete _ _ => true
  | RunOp.fail _ _ => true
  | RunOp.addStep _ _ _ _ => false

/-- The status a terminal call sets (default for non-terminal calls). -/
def RunOp.statusSet (dflt : RunStatus) : RunOp α → RunStatus
  | RunOp.complete _ _ => RunStatus.completed
  | RunOp.fail _ _ => RunStatus.failed
  | RunOp.addStep _ _ _ _ => dflt

/-- The completion timestamp a terminal call sets. -/
def RunOp.timeSet (dflt : Option Nat) : RunOp α → Option Nat
  | RunOp.complete _ now => some now
  | RunOp.fail _ now => some now
  | RunOp.addStep _ _ _ _ => dflt

/-- The most recent `complete`/`fail` call of a sequence, if any. -/
def lastTerminalOp (ops : List (RunOp α)) : Option (RunOp α) :=
  ops.reverse.find? RunOp.isTerminal

/-- A concrete run used for counterexamples and witnesses. -/
def runZero : Run Nat :=
  startRun "http://localhost:3000/api" defaultSampling "pipeline" 0 [] "run-1" 0

/-! Transport (`Run.send` and its callers `complete`/`fail`). -/

/-- Failure oracle for one delivery attempt: whether `JSON.stringify` throws
and whether the `fetch` promise rejects (network error, timeout; a non-2xx
response does not even reject for `fetch`). -/
structure TransportEnv where
  serializeError : Option String
  deliveryError : Option String
deriving DecidableEq, Repr

/-- Payload construction inside `Run.send`'s `try` block; `JSON.stringify`
may throw on an unserializable value, which the oracle injects. -/
def buildPayload (r : Run α) (env : TransportEnv) : Except String (Run α) :=
  match env.serializeError with
  | some msg => Except.error msg
  | none => Except.ok r

/-- The `fetch(...).catch(err => console.error("FAILED TO SEND TRACE", ...))`
dispatch: a rejected promise is consumed by the attached handler, which only
logs.  Returns the (never-failing) result together with the log lines. -/
def dispatchFetch (env : TransportEnv) : Except String Unit × List String :=
  match env.deliveryError with
  | some msg => (Except.ok (), ["FAILED TO SEND TRACE " ++ msg])
  | none => (Except.ok (), [])

/-- `Run.send`: `try { build payload; dispatch fetch } catch { log }`. -/
def Run.send (r : Run α) (env : TransportEnv) : Except String Unit × List String :=
  match buildPayload r env with
  | Except.ok _ => dispatchFetch env
  | Except.error msg => (Except.ok (), ["Error sending trace " ++ msg])

/-- `Run.complete` including the `await this.send()` dispatch: the state
change followed by one delivery attempt. -/
def Run.completeAndSend (r : Run α) (output : α) (now : Nat)
    (env : TransportEnv) : Except String (Run α) × List String :=
  let done := r.complete output now
  let sent := done.send env
  (sent.1.map fun _ => done, sent.2)

/-- `Run.fail` including the `await this.send()` dispatch. -/
def Run.failAndSend (r : Run α) (errMsg : String) (now : Nat)
    (env : TransportEnv) : Except String (Run α) × List String :=
  let done := r.fail errMsg now
  let sent := done.send env
  (sent.1.map fun _ => done, sent.2)

/-! Mutating operations on a `Step`, for stating the count invariant. -/

/-- One mutating call on a `Step` object. -/
inductive StepOp (α : Type) where
  | recordInput (input : α)
  | recordOutput (output : α) (now : Nat)
  | recordCandidates (candidates : List α) (status : CandidateStatus)
  | recordFiltering (before after : List α) (filterName filterType : String)
      (parameters : Option (List (String × String)))
  | recordLLMDecision (reasoning : String) (candidatesOut : Option Nat)
  | setMetadata (m : List (String × String))
deriving DecidableEq, Repr

/-- Apply one mutating call to a step. -/
def Step.applyOp [DecidableEq α] (s : Step α) : StepOp α → Step α
  | StepOp.recordInput v => s.recordInput v
  | StepOp.recordOutput v t => s.recordOutput v t
  | StepOp.recordCandidates cs st => s.recordCandidates cs st
  | StepOp.recordFiltering b a fn ft pm => s.recordFiltering b a fn ft pm
  | StepOp.recordLLMDecision rs co => s.recordLLMDecision rs co
  | StepOp.setMetadata m => s.setMetadata m

/-- Apply a sequence of mutating calls to a step, in order. -/
def Step.applyOps [DecidableEq α] (s : Step α) (ops : List (StepOp α)) : Step α :=
  ops.foldl Step.applyOp s

/-- The count invariant claimed of the data model: `candidatesOut` does not
exceed `candidatesIn` when both are present. -/
def countInvariant (s : Step α) : Bool :=
  match s.candidatesIn, s.candidatesOut with
  | some ci, some co => co ≤ ci
  | _, _ => true

/-- Per-call precondition under which a mutating call respects the count
invariant (the operations themselves enforce nothing). -/
def opOk [DecidableEq α] (s : Step α) : StepOp α → Bool
  | StepOp.recordFiltering b a _ _ _ => a.length ≤ b.length
  | StepOp.recordCandidates cs st =>
      if st = CandidateStatus.accepted then
        match s.candidatesIn with
        | some ci => cs.length ≤ ci
        | none => true
      else true
  | StepOp.recordLLMDecision _ co =>
      match co, s.candidatesIn with
      | some n, some ci => n ≤ ci
      | _, _ => true
  | _ => true

/-- All calls in a sequence satisfy their precondition in the state where
they execute. -/
def opsOk [DecidableEq α] : Step α → List (StepOp α) → Bool
  | _, [] => true
  | s, op :: rest => opOk s op && opsOk (s.applyOp op) rest

/-- A concrete fresh step used for counterexamples and witnesses. -/
def stepZero : Step Nat :=
  { id := "step-1", runId := "run-1", stepName := "filter-step",
    stepType := StepType.filter, stepIndex := 0, startedAt := 0,
    sampling := defaultSampling }

/-! Sequences of `recordFiltering` calls (step-level counts vs filter log). -/

/-- The arguments of one `recordFiltering` call. -/
structure FilterCall (α : Type) where
  before : List α
  after : List α
  filterName : String
  filterType : String
  parameters : Option (List (String × String))
deriving DecidableEq, Repr

/-- Apply a sequence of `recordFiltering` calls, in order. -/
def Step.applyFilterCalls [DecidableEq α] (s : Step α)
    (calls : List (FilterCall α)) : Step α :=
  calls.foldl
    (fun s c => s.recordFiltering c.before c.after c.filterName c.filterType c.parameters)
    s

/-- The `FilterData` record that one `recordFiltering` call appends. -/
def FilterCall.toFilterData (c : FilterCall α) : FilterData :=
  { filterName := c.filterName, filterType := c.filterType,
    parameters := c.parameters, candidateBefore := c.before.length,
    candidatesAfter := c.after.length,
    eliminationRate := 1 - (c.after.length : ℚ) / (c.before.length : ℚ) }

end XRay

namespace XRay

/-!  Server side: relational rows (schema `runs`/`steps`/`candidates`),
the ingestion handler `POST /runs` and the analytical handler
`POST /runs/query`.  Opaque JSON column values are modelled as `String`;
SQL `NULL` as `Option`. -/

/-- A row of the `runs` table. -/
structure RunRow where
  id : String
  pipeline_name : String
  status : String
  started_at : Nat
  completed_at : Option Nat
  input : String
  output : Option String
  metadata : Option String
deriving DecidableEq, Repr

/-- A row of the `steps` table. -/
structure StepRow where
  id : String
  run_id : String
  step_name : String
  step_type : String
  step_index : Nat
  started_at : Nat
  completed_at : Option Nat
  duration_ms : Option Nat
  input : Option String
  output : Option String
  candidates_in : Option Nat
  candidates_out : Option Nat
  reasoning : Option String
  filters_applied : Option String
  metadata : Option String
deriving DecidableEq, Repr

/-- A row of the `candidates` table (the generated `id` column is omitted:
the insert never supplies it). -/
structure CandidateRow where
  step_id : String
  candidate_data : String
  status : String
  score : Option ℚ
  reason : Option String
  rejection_reason : Option String
  rejection_filter : Option String
deriving DecidableEq, Repr

/-- The persistent store. -/
structure DB where
  runs : List RunRow
  steps : List StepRow
  candidates : List CandidateRow
deriving DecidableEq, Repr

/-- One nested candidate of the `POST /runs` request body. -/
structure CandidatePayload where
  data : String
  status : String
  score : Option ℚ
  reason : Option String
  rejectionReason : Option String
  rejectionFilter : Option String
deriving DecidableEq, Repr

/-- One nested step of the `POST /runs` request body. -/
structure StepPayload where
  id : String
  stepName : String
  stepType : String
  stepIndex : Nat
  startedAt : Nat
  completedAt : Option Nat
  durationMs : Option Nat
  input : Option String
  output : Option String
  candidatesIn : Option Nat
  candidatesOut : Option Nat
  reasoning : Option String
  filtersApplied : Option String
  metadata : Option String
  candidates : List CandidatePayload
deriving DecidableEq, Repr

/-- The `POST /runs` request body: a serialized run. -/
structure RunPayload where
  id : String
  pipelineName : String
  status : String
  startedAt : Nat
  completedAt : Option Nat
  input : String
  output : Option String
  metadata : Option String
  steps : List StepPayload
deriving DecidableEq, Repr

/-- The `runs` row the handler inserts for a payload. -/
def runRowOf (p : RunPayload) : RunRow :=
  { id := p.id, pipeline_name := p.pipelineName, status := p.status,
    started_at := p.startedAt, completed_at := p.completedAt,
    input := p.input, output := p.output, metadata := p.metadata }

/-- The `steps` row the handler inserts for a nested step (`run_id` is taken
from the payload run, not from the step). -/
def stepRowOf (runId : String) (s : StepPayload) : StepRow :=
  { id := s.id, run_id := runId, step_name := s.stepName,
    step_type := s.stepType, step_index := s.stepIndex,
    started_at := s.startedAt, completed_at := s.completedAt,
    duration_ms := s.durationMs, input := s.input, output := s.output,
    candidates_in := s.candidatesIn, candidates_out := s.candidatesOut,
    reasoning := s.reasoning, filters_applied := s.filtersApplied,
    metadata := s.metadata }

/-- The `candidates` row the handler inserts for a nested candidate. -/
def candidateRowOf (stepId : String) (c : CandidatePayload) : CandidateRow :=
  { step_id := stepId, candidate_data := c.data, status := c.status,
    score := c.score, reason := c.reason,
    rejection_reason := c.rejectionReason,
    rejection_filter := c.rejectionFilter }

/-- One `INSERT` statement issued inside the transaction. -/
inductive InsertStmt where
  | insertRun (row : RunRow)
  | insertStep (row : StepRow)
  | insertCandidate (row : CandidateRow)
deriving DecidableEq, Repr

/-- The sequence of inserts the handler issues for a payload: the run row
first, then, for each step in payload order, the step row followed by that
step's candidate rows. -/
def insertsOf (p : RunPayload) : List InsertStmt :=
  InsertStmt.insertRun (runRowOf p) ::
    p.steps.flatMap fun s =>
      InsertStmt.insertStep (stepRowOf p.id s) ::
        s.candidates.map fun c => InsertStmt.insertCandidate (candidateRowOf s.id c)

/-- Effect of one successful insert on the store. -/
def DB.applyInsert (db : DB) : InsertStmt → DB
  | InsertStmt.insertRun r => { db with runs := db.runs ++ [r] }
  | InsertStmt.insertStep s => { db with steps := db.steps ++ [s] }
  | InsertStmt.insertCandidate c => { db with candidates := db.candidates ++ [c] }

/-- Run the inserts in order against a staged copy of the store; the oracle
gives the error message of the `i`-th insert when that insert fails
(constraint violation, connectivity loss). -/
def execInserts (oracle : Nat → Option String) :
    DB → Nat → List InsertStmt → Except String DB
  | db, _, [] => Except.ok db
  | db, i, stmt :: rest =>
    match oracle i with
    | some msg => Except.error msg
    | none => execInserts oracle (db.applyInsert stmt) (i + 1) rest

/-- An HTTP response of the ingestion handler. -/
structure ApiResponse where
  statusCode : Nat
  success : Bool
  message : Option String := none
  runId : Option String := none
  error : Option String := none
deriving DecidableEq, Repr

/-- The `201` response of `POST /runs`. -/
def successResponse (runId : String) : ApiResponse :=
  { statusCode := 201, success := true,
    message := some "Run trace recorded successfully", runId := some runId }

/-- The `500` response of `POST /runs`. -/
def failureResponse (msg : String) : ApiResponse :=
  { statusCode := 500, success := false, error := some msg }

/-- `POST /runs`: `BEGIN`, the inserts in order, `COMMIT` on success with a
`201`, `ROLLBACK` on any failure with a `500` (the original store is kept). -/
def postRuns (db : DB) (p : RunPayload) (oracle : Nat → Option String) :
    DB × ApiResponse :=
  match execInserts oracle db 0 (insertsOf p) with
  | Except.ok db2 => (db2, successResponse p.id)
  | Except.error msg => (db, failureResponse msg)

/-- The first failing insert (by position) among the first `n`, with its
message. -/
def firstFailure (oracle : Nat → Option String) (n : Nat) : Option String :=
  (List.range n).findSome? oracle

/-- Specification-side description of the fully committed store: every row
of the payload appended, grouped by table. -/
def committedDB (db : DB) (p : RunPayload) : DB :=
  { runs := db.runs ++ [runRowOf p],
    steps := db.steps ++ p.steps.map (stepRowOf p.id),
    candidates := db.candidates ++
      p.steps.flatMap fun s => s.candidates.map (candidateRowOf s.id) }

end XRay



namespace XRay

/-! `POST /runs/query`: the cross-pipeline elimination-rate query. -/

/-- One result row of the elimination-rate query (the `SELECT` list:
run identity fields joined onto the step's standardized metrics).
`elimination_rate` uses `NULLIF(candidates_in, 0)`, so it is `NULL` when
either count is `NULL` or `candidates_in` is zero. -/
structure EliminationRow where
  run_id : String
  pipeline_name : String
  started_at : Nat
  step_name : String
  step_type : String
  candidates_in : Option Nat
  candidates_out : Option Nat
  elimination_rate : Option ℚ
  filters_applied : Option String
deriving DecidableEq, Repr

/-- The `SELECT` list applied to one joined `(run, step)` pair. -/
def selectElimination (r : RunRow) (s : StepRow) : EliminationRow :=
  { run_id := r.id, pipeline_name := r.pipeline_name,
    started_at := r.started_at, step_name := s.step_name,
    step_type := s.step_type, candidates_in := s.candidates_in,
    candidates_out := s.candidates_out,
    elimination_rate :=
      match s.candidates_in, s.candidates_out with
      | some ci, some co =>
          if ci = 0 then none else some (1 - (co : ℚ) / (ci : ℚ))
      | _, _ => none,
    filters_applied := s.filters_applied }

/-- The `WHERE` clause
`s.candidates_in > 0 AND (1.0 - s.candidates_out::float / s.candidates_in) >= $1`
under SQL three-valued logic: a row with a `NULL` count never passes. -/
def wherePasses (threshold : ℚ) (s : StepRow) : Bool :=
  match s.candidates_in, s.candidates_out with
  | some ci, some co => decide (0 < ci) && decide (threshold ≤ 1 - (co : ℚ) / (ci : ℚ))
  | _, _ => false

/-- `FROM runs r JOIN steps s ON r.id = s.run_id` with the `WHERE` clause
and the `SELECT` list applied. -/
def joinedRows (db : DB) (threshold : ℚ) : List EliminationRow :=
  db.runs.flatMap fun r =>
    ((db.steps.filter fun s => s.run_id = r.id).filter (wherePasses threshold)).map
      (selectElimination r)

/-- Descending order on the selected elimination rate (`ORDER BY
elimination_rate DESC`; every selected row has a non-`NULL` rate, the
default `0` is never consulted). -/
def rateGE (a b : EliminationRow) : Prop :=
  b.elimination_rate.getD 0 ≤ a.elimination_rate.getD 0

instance : DecidableRel rateGE := fun a b =>
  inferInstanceAs (Decidable (b.elimination_rate.getD 0 ≤ a.elimination_rate.getD 0))

instance : IsTotal EliminationRow rateGE :=
  ⟨fun a b => le_total (b.elimination_rate.getD 0) (a.elimination_rate.getD 0)⟩

instance : IsTrans EliminationRow rateGE :=
  ⟨fun _ _ _ h1 h2 => le_trans h2 h1⟩

/-- Descending order on run start time (`ORDER BY started_at DESC`). -/
def startedGE (a b : RunRow) : Prop :=
  b.started_at ≤ a.started_at

instance : DecidableRel startedGE := fun a b =>
  inferInstanceAs (Decidable (b.started_at ≤ a.started_at))

instance : IsTotal RunRow startedGE :=
  ⟨fun a b => le_total b.started_at a.started_at⟩

instance : IsTrans RunRow startedGE :=
  ⟨fun _ _ _ h1 h2 => le_trans h2 h1⟩

/-- The two result shapes of `POST /runs/query`. -/
inductive QueryResult where
  | steps (rows : List EliminationRow)
  | runs (rows : List RunRow)
deriving DecidableEq, Repr

/-- `POST /runs/query`: with `minEliminationRate` present, the filtered join
ordered by elimination rate descending, `LIMIT 100`; otherwise the runs
ordered by start time descending, `LIMIT 50`. -/
def runsQuery (db : DB) (minEliminationRate : Option ℚ) : QueryResult :=
  match minEliminationRate with
  | some t =>
      QueryResult.steps
        ((List.insertionSort rateGE (joinedRows db t)).take 100)
  | none =>
      QueryResult.runs
        ((List.insertionSort startedGE db.runs).take 50)

/-- The step rows of a query result. -/
def QueryResult.stepRows : QueryResult → List EliminationRow
  | QueryResult.steps rows => rows
  | QueryResult.runs _ => []

/-- The run rows of a query result. -/
def QueryResult.runRows : QueryResult → List RunRow
  | QueryResult.steps _ => []
  | QueryResult.runs rows => rows

/-- Specification-side eligibility of a joined row, exactly as the claim
words it: both counts present, `candidatesIn` positive, and elimination
rate `1 - candidatesOut/candidatesIn` at or above the threshold. -/
def eligibleStep (threshold : ℚ) (s : StepRow) : Prop :=
  ∃ ci co, s.candidates_in = some ci ∧ s.candidates_out = some co ∧
    0 < ci ∧ threshold ≤ 1 - (co : ℚ) / (ci : ℚ)

/-- A concrete run row used for query witnesses. -/
def runRow1 : RunRow :=
  { id := "r1", pipeline_name := "search", status := "completed",
    started_at := 10, completed_at := some 20, input := "{}",
    output := none, metadata := none }

/-- A concrete api step with no `candidates_in` (must be excluded). -/
def stepRow0 : StepRow :=
  { id := "s0", run_id := "r1", step_name := "fetch", step_type := "api",
    step_index := 0, started_at := 10, completed_at := none,
    duration_ms := none, input := none, output := none,
    candidates_in := none, candidates_out := some 5000, reasoning := none,
    filters_applied := none, metadata := none }

/-- A concrete filter step eliminating 5000 → 450 (rate `0.91`). -/
def stepRow1 : StepRow :=
  { stepRow0 with
    id := "s1", step_name := "dedupe", step_type := "filter",
    step_index := 1, candidates_in := some 5000, candidates_out := some 450 }

/-- A concrete filter step eliminating 450 → 30 (rate `14/15`). -/
def stepRow2 : StepRow :=
  { stepRow0 with
    id := "s2", step_name := "rank-cut", step_type := "filter",
    step_index := 2, candidates_in := some 450, candidates_out := some 30 }

/-- A concrete step with `candidates_in = 0` (must be excluded, not an
error). -/
def stepRow3 : StepRow :=
  { stepRow0 with
    id := "s3", step_name := "empty", step_type := "filter",
    step_index := 3, candidates_in := some 0, candidates_out := some 0 }

/-- A concrete store used for query witnesses. -/
def dbZero : DB :=
  { runs := [runRow1], steps := [stepRow0, stepRow1, stepRow2, stepRow3],
    candidates := [] }

end XRay

namespace XRay

/-! Theorems. -/

/-- C3: for every list of `n` candidates sampled with disposition `rejected`
and every `sampleRate`, `sampleCandidates` retains exactly the first
`min(n, max(ceil(n * sampleRate), 5))` elements of the input sequence, each
tagged with status `rejected` and the rejecting filter's name. -/
theorem sampleCandidates_rejected_prefix (s : Step α) (cs : List α)
    (filterName : String) :
    s.sampleCandidates cs CandidateStatus.rejected (some filterName)
        = (cs.take (max (⌈(cs.length : ℚ) * s.sampling.sampleRate⌉ : ℤ) 5).toNat).map
            (fun c => { data := c, status := CandidateStatus.rejected,
                        rejectionFilter := some filterName }) ∧
    (s.sampleCandidates cs CandidateStatus.rejected (some filterName)).length
        = min cs.length (max (⌈(cs.length : ℚ) * s.sampling.sampleRate⌉ : ℤ) 5).toNat := by
  constructor
  · simp [Step.sampleCandidates]
  · simp [Step.sampleCandidates, Nat.min_comm]

/-- C9: with `keepAllOutputs = true`, recording `N` accepted candidates
retains exactly the `N` input candidates, each with status `accepted` and
its data unchanged, and sets `candidatesOut` to the pre-sampling count `N`. -/
theorem recordCandidates_keepAllOutputs (s : Step α) (cs : List α)
    (h : s.sampling.keepAllOutputs = true) :
    (s.recordCandidates cs CandidateStatus.accepted).candidates
        = s.candidates ++
            cs.map (fun c => { data := c, status := CandidateStatus.accepted }) ∧
    (s.recordCandidates cs CandidateStatus.accepted).candidatesOut
        = some cs.length := by
  constructor
  · simp [Step.recordCandidates, Step.sampleCandidates, h]
  · simp [Step.recordCandidates]

/-- Witness for C9 at a concrete step and candidate list. -/
theorem recordCandidates_keepAllOutputs_witness :
    stepZero.sampling.keepAllOutputs = true ∧
    (stepZero.recordCandidates [7, 8, 9] CandidateStatus.accepted).candidates
        = [{ data := 7, status := CandidateStatus.accepted },
           { data := 8, status := CandidateStatus.accepted },
           { data := 9, status := CandidateStatus.accepted }] ∧
    (stepZero.recordCandidates [7, 8, 9] CandidateStatus.accepted).candidatesOut
        = some 3 := by
  have h := recordCandidates_keepAllOutputs stepZero [7, 8, 9] rfl
  exact ⟨rfl, by rw [h.1]; rfl, h.2⟩

/-- C8: `recordFiltering` on a non-empty before-sequence appends one
`FilterData` whose counts are the two input lengths and whose elimination
rate is exactly `1 - after/before`. -/
theorem recordFiltering_eliminationRate [DecidableEq α] (s : Step α)
    (before after : List α) (fn ft : String)
    (pm : Option (List (String × String))) (_h : 0 < before.length) :
    (s.recordFiltering before after fn ft pm).filtersApplied
      = s.filtersApplied ++
          [{ filterName := fn, filterType := ft, parameters := pm,
             candidateBefore := before.length, candidatesAfter := after.length,
             eliminationRate := 1 - (after.length : ℚ) / (before.length : ℚ) }] := by
  simp [Step.recordFiltering]

/-- Witness for C8 at the spec's `before = 5000`, `after = 450` example:
the recorded elimination rate is exactly `0.91`. -/
theorem recordFiltering_eliminationRate_witness :
    0 < (List.replicate 5000 (0 : Nat)).length ∧
    (stepZero.recordFiltering (List.replicate 5000 0) (List.replicate 450 0)
        "dedupe" "filter" none).filtersApplied
      = [{ filterName := "dedupe", filterType := "filter", parameters := none,
           candidateBefore := 5000, candidatesAfter := 450,
           eliminationRate := 91 / 100 }] := by
  have h := recordFiltering_eliminationRate stepZero
    (List.replicate 5000 (0 : Nat)) (List.replicate 450 0)
    "dedupe" "filter" none (by rw [List.length_replicate]; norm_num)
  refine ⟨by rw [List.length_replicate]; norm_num, ?_⟩
  rw [h]
  norm_num [stepZero]

/-- C7: the rejected subset computed by `recordFiltering` before sampling is
exactly the members of the before-sequence not present in the
after-sequence (identity-based membership), and together with the
after-sequence it covers every element of `before` exactly once. -/
theorem recordFiltering_partition [DecidableEq α] (before after : List α) :
    (∀ y, y ∈ rejectedCandidates before after ↔ (y ∈ before ∧ y ∉ after)) ∧
    (∀ x ∈ before,
      (x ∈ rejectedCandidates before after ∨ x ∈ after) ∧
      ¬(x ∈ rejectedCandidates before after ∧ x ∈ after)) := by
  refine ⟨fun y => by simp [rejectedCandidates], fun x hx => ?_⟩
  by_cases hmem : x ∈ after
  · exact ⟨Or.inr hmem, fun hc => by
      have := (by simp [rejectedCandidates] : x ∈ rejectedCandidates before after ↔
        (x ∈ before ∧ x ∉ after)).mp hc.1
      exact this.2 hmem⟩
  · refine ⟨Or.inl ?_, fun hc => hmem hc.2⟩
    simp [rejectedCandidates]
    exact ⟨hx, hmem⟩

/-- Witness for C7 at concrete lists: `1` is rejected (absent from the
after-sequence), `2` is not, and `2`'s membership partition is exclusive. -/
theorem recordFiltering_partition_witness :
    ((1 : Nat) ∈ rejectedCandidates [1, 2, 3] [2, 4] ∨ (1 : Nat) ∈ [2, 4]) ∧
    ¬((2 : Nat) ∈ rejectedCandidates [1, 2, 3] [2, 4] ∧ (2 : Nat) ∈ [2, 4]) ∧
    ((3 : Nat) ∈ rejectedCandidates [1, 2, 3] [2, 4] ↔
      ((3 : Nat) ∈ [1, 2, 3] ∧ (3 : Nat) ∉ [2, 4])) := by
  have h := recordFiltering_partition [1, 2, 3] [2, 4]
  exact ⟨(h.2 1 (by decide)).1, (h.2 2 (by decide)).2, h.1 3⟩

/-- C5: every failure during serialization or delivery of the trace is
caught inside `send`; `complete` and `fail` return normally (never an
error) with the terminal run state, for every transport environment. -/
theorem completeAndSend_never_raises (r : Run α) (output : α)
    (errMsg : String) (now : Nat) (env : TransportEnv) :
    (r.completeAndSend output now env).1 = Except.ok (r.complete output now) ∧
    (r.failAndSend errMsg now env).1 = Except.ok (r.fail errMsg now) := by
  rcases env with ⟨se, de⟩
  cases se <;> cases de <;> exact ⟨rfl, rfl⟩

end XRay

namespace XRay

/-- Helper for C10: behaviour of a non-empty sequence of `recordFiltering`
calls, with the last call phrased via `getLastD`. -/
theorem applyFilterCalls_cons_spec [DecidableEq α] (rest : List (FilterCall α)) :
    ∀ (s : Step α) (c : FilterCall α),
    (s.applyFilterCalls (c :: rest)).candidatesIn
        = some ((rest.getLastD c).before.length) ∧
    (s.applyFilterCalls (c :: rest)).candidatesOut
        = some ((rest.getLastD c).after.length) ∧
    (s.applyFilterCalls (c :: rest)).filtersApplied
        = s.filtersApplied ++ (c :: rest).map FilterCall.toFilterData := by
  induction rest with
  | nil =>
    intro s c
    refine ⟨rfl, rfl, ?_⟩
    simp [Step.applyFilterCalls, Step.recordFiltering, FilterCall.toFilterData]
  | cons c2 rest2 ih =>
    intro s c
    have e : s.applyFilterCalls (c :: c2 :: rest2)
        = (s.recordFiltering c.before c.after c.filterName c.filterType
            c.parameters).applyFilterCalls (c2 :: rest2) := rfl
    obtain ⟨h1, h2, h3⟩ := ih
      (s.recordFiltering c.before c.after c.filterName c.filterType c.parameters) c2
    rw [e, List.getLastD_cons]
    refine ⟨h1, h2, ?_⟩
    rw [h3]
    simp [Step.recordFiltering, FilterCall.toFilterData]

/-- C10: after `k ≥ 1` `recordFiltering` calls, the step-level counts come
from the most recent call only (each call overwrites both fields), while
`filtersApplied` grows by exactly one record per call, appended in call
order. -/
theorem applyFilterCalls_last_call_wins [DecidableEq α] (s : Step α)
    (calls : List (FilterCall α)) (h : calls ≠ []) :
    (s.applyFilterCalls calls).candidatesIn
        = some ((calls.getLast h).before.length) ∧
    (s.applyFilterCalls calls).candidatesOut
        = some ((calls.getLast h).after.length) ∧
    (s.applyFilterCalls calls).filtersApplied
        = s.filtersApplied ++ calls.map FilterCall.toFilterData := by
  match calls, h with
  | c :: rest, h =>
    rw [List.getLast_eq_getLastD]
    exact applyFilterCalls_cons_spec rest s c

/-- Witness for C10 at two concrete `recordFiltering` calls. -/
theorem applyFilterCalls_last_call_wins_witness :
    ([⟨[1, 2, 3], [1, 2], "a", "filter", none⟩,
      ⟨[1, 2], [1], "b", "filter", none⟩] : List (FilterCall Nat)) ≠ [] ∧
    (stepZero.applyFilterCalls
        [⟨[1, 2, 3], [1, 2], "a", "filter", none⟩,
         ⟨[1, 2], [1], "b", "filter", none⟩]).candidatesIn = some 2 ∧
    (stepZero.applyFilterCalls
        [⟨[1, 2, 3], [1, 2], "a", "filter", none⟩,
         ⟨[1, 2], [1], "b", "filter", none⟩]).candidatesOut = some 1 ∧
    (stepZero.applyFilterCalls
        [⟨[1, 2, 3], [1, 2], "a", "filter", none⟩,
         ⟨[1, 2], [1], "b", "filter", none⟩]).filtersApplied
      = [FilterCall.toFilterData ⟨[1, 2, 3], [1, 2], "a", "filter", none⟩,
         FilterCall.toFilterData ⟨[1, 2], [1], "b", "filter", none⟩] := by
  have h := applyFilterCalls_last_call_wins stepZero
    [⟨[1, 2, 3], [1, 2], "a", "filter", none⟩,
     ⟨[1, 2], [1], "b", "filter", none⟩] (by decide)
  exact ⟨by decide, h.1.trans rfl, h.2.1.trans rfl, h.2.2.trans rfl⟩

/-- C1 counterexample: the terminal transitions are not guarded — after
`complete`, a further `fail` call overwrites both the status and the
completion timestamp, so the run is not terminal in the claimed sense. -/
theorem run_terminal_not_guarded :
    (runZero.complete 7 1).status = RunStatus.completed ∧
    ((runZero.complete 7 1).fail "boom" 2).status = RunStatus.failed ∧
    ((runZero.complete 7 1).fail "boom" 2).status ≠ (runZero.complete 7 1).status ∧
    ((runZero.complete 7 1).fail "boom" 2).completedAt
        ≠ (runZero.complete 7 1).completedAt := by
  exact ⟨rfl, rfl, by decide, by decide⟩

/-- C1 (amended): the status is `running` until the first `complete`/`fail`
call and each of the two calls sets its status and completion timestamp,
but no transition is guarded: after any sequence of mutating calls, status
and completion timestamp are those set by the most recent terminal call
(`addStep` never affects them). -/
theorem run_status_determined_by_last_terminal (r : Run α)
    (ops : List (RunOp α)) :
    (r.applyOps ops).status
        = (lastTerminalOp ops).elim r.status (RunOp.statusSet r.status) ∧
    (r.applyOps ops).completedAt
        = (lastTerminalOp ops).elim r.completedAt (RunOp.timeSet r.completedAt) := by
  induction ops using List.reverseRecOn with
  | nil => exact ⟨rfl, rfl⟩
  | append_singleton ops op ih =>
    unfold Run.applyOps lastTerminalOp
    rw [List.foldl_concat, List.reverse_append, List.reverse_singleton,
      List.singleton_append]
    cases op with
    | complete o t =>
      rw [List.find?_cons_of_pos _ rfl]
      exact ⟨rfl, rfl⟩
    | fail m t =>
      rw [List.find?_cons_of_pos _ rfl]
      exact ⟨rfl, rfl⟩
    | addStep n ty id t =>
      rw [List.find?_cons_of_neg _ (by simp [RunOp.isTerminal])]
      exact ⟨ih.1, ih.2⟩

end XRay

namespace XRay

/-- The count invariant only depends on the two count fields. -/
theorem countInvariant_congr (s1 s2 : Step α)
    (h1 : s1.candidatesIn = s2.candidatesIn)
    (h2 : s1.candidatesOut = s2.candidatesOut) :
    countInvariant s1 = countInvariant s2 := by
  unfold countInvariant
  rw [h1, h2]

/-- Unfolding of the count invariant as a proposition. -/
theorem countInvariant_eq_true_iff (s : Step α) :
    countInvariant s = true ↔
      (∀ ci co, s.candidatesIn = some ci → s.candidatesOut = some co → co ≤ ci) := by
  unfold countInvariant
  cases hci : s.candidatesIn <;> cases hco : s.candidatesOut <;> simp

/-- One mutating call preserves the count invariant when it satisfies its
per-call precondition. -/
theorem opOk_preserves [DecidableEq α] (s : Step α) (op : StepOp α)
    (h0 : countInvariant s = true) (h : opOk s op = true) :
    countInvariant (s.applyOp op) = true := by
  cases op with
  | recordInput v => exact h0
  | recordOutput v t => exact h0
  | setMetadata m => exact h0
  | recordFiltering b a fn ft pm =>
    unfold opOk at h
    rw [decide_eq_true_eq] at h
    rw [countInvariant_eq_true_iff]
    intro ci co hci hco
    have eci : (s.applyOp (StepOp.recordFiltering b a fn ft pm)).candidatesIn
        = some b.length := by
      simp [Step.applyOp, Step.recordFiltering]
    have eco : (s.applyOp (StepOp.recordFiltering b a fn ft pm)).candidatesOut
        = some a.length := by
      simp [Step.applyOp, Step.recordFiltering]
    rw [eci, Option.some_inj] at hci
    rw [eco, Option.some_inj] at hco
    omega
  | recordCandidates cs st =>
    by_cases hst : st = CandidateStatus.accepted
    · subst hst
      unfold opOk at h
      rw [countInvariant_eq_true_iff]
      intro ci co hci hco
      have eci : (s.applyOp (StepOp.recordCandidates cs CandidateStatus.accepted)).candidatesIn
          = s.candidatesIn := by
        simp [Step.applyOp, Step.recordCandidates]
      have eco : (s.applyOp (StepOp.recordCandidates cs CandidateStatus.accepted)).candidatesOut
          = some cs.length := by
        simp [Step.applyOp, Step.recordCandidates]
      rw [eci] at hci
      rw [eco, Option.some_inj] at hco
      rw [hci] at h
      simp at h
      omega
    · have e : countInvariant (s.applyOp (StepOp.recordCandidates cs st))
          = countInvariant s := by
        apply countInvariant_congr
        · simp [Step.applyOp, Step.recordCandidates, hst]
        · simp [Step.applyOp, Step.recordCandidates, hst]
      rw [e]
      exact h0
  | recordLLMDecision rs co =>
    cases co with
    | none =>
      have e : countInvariant (s.applyOp (StepOp.recordLLMDecision rs none))
          = countInvariant s := by
        apply countInvariant_congr
        · simp [Step.applyOp, Step.recordLLMDecision]
        · simp [Step.applyOp, Step.recordLLMDecision]
      rw [e]
      exact h0
    | some n =>
      unfold opOk at h
      rw [countInvariant_eq_true_iff]
      intro ci co hci hco
      have eci : (s.applyOp (StepOp.recordLLMDecision rs (some n))).candidatesIn
          = s.candidatesIn := by
        simp [Step.applyOp, Step.recordLLMDecision]
      have eco : (s.applyOp (StepOp.recordLLMDecision rs (some n))).candidatesOut
          = some n := by
        simp [Step.applyOp, Step.recordLLMDecision]
      rw [eci] at hci
      rw [eco, Option.some_inj] at hco
      rw [hci] at h
      simp at h
      omega

/-- C6 counterexample: the trace builder does not preserve the inequality —
a `recordFiltering` call followed by a `recordCandidates(accepted)` call
leaves `candidatesOut = 5 > candidatesIn = 2`. -/
theorem countInvariant_violated :
    (stepZero.applyOps
        [StepOp.recordFiltering [1, 2] [1] "f" "filter" none,
         StepOp.recordCandidates [3, 4, 5, 6, 7] CandidateStatus.accepted]).candidatesIn
      = some 2 ∧
    (stepZero.applyOps
        [StepOp.recordFiltering [1, 2] [1] "f" "filter" none,
         StepOp.recordCandidates [3, 4, 5, 6, 7] CandidateStatus.accepted]).candidatesOut
      = some 5 ∧
    countInvariant (stepZero.applyOps
        [StepOp.recordFiltering [1, 2] [1] "f" "filter" none,
         StepOp.recordCandidates [3, 4, 5, 6, 7] CandidateStatus.accepted])
      = false := by
  exact ⟨rfl, rfl, by decide⟩

/-- C6 (amended): the trace builder's operations do not themselves enforce
the inequality; it is an invariant only under per-call preconditions —
every `recordFiltering` passes an after-sequence no longer than its
before-sequence, and every `recordCandidates(accepted)` /
`recordLLMDecision` supplies a count not exceeding the step's current
`candidatesIn` when that field is present.  Under those conditions every
sequence of recording operations preserves it. -/
theorem countInvariant_preserved_under_opsOk [DecidableEq α] (s : Step α)
    (ops : List (StepOp α)) (h0 : countInvariant s = true)
    (h : opsOk s ops = true) :
    countInvariant (s.applyOps ops) = true := by
  induction ops generalizing s with
  | nil => exact h0
  | cons op rest ih =>
    unfold opsOk at h
    rw [Bool.and_eq_true] at h
    exact ih (s.applyOp op) (opOk_preserves s op h0 h.1) h.2

/-- Witness for the amended C6 at a concrete three-call sequence. -/
theorem countInvariant_preserved_witness :
    countInvariant (stepZero : Step Nat) = true ∧
    opsOk stepZero
        [StepOp.recordFiltering [1, 2, 3] [1, 2] "f" "filter" none,
         StepOp.recordLLMDecision "why" (some 1),
         StepOp.recordCandidates [9] CandidateStatus.accepted] = true ∧
    countInvariant (stepZero.applyOps
        [StepOp.recordFiltering [1, 2, 3] [1, 2] "f" "filter" none,
         StepOp.recordLLMDecision "why" (some 1),
         StepOp.recordCandidates [9] CandidateStatus.accepted]) = true := by
  refine ⟨by decide, by decide, ?_⟩
  exact countInvariant_preserved_under_opsOk stepZero _ (by decide) (by decide)

end XRay

namespace XRay

/-- The transaction body visits the inserts in order and either reaches the
end with all of them applied or stops at the first failing position. -/
theorem execInserts_spec (oracle : Nat → Option String)
    (stmts : List InsertStmt) :
    ∀ (db : DB) (i : Nat),
    execInserts oracle db i stmts
      = match (List.range' i stmts.length).findSome? oracle with
        | none => Except.ok (stmts.foldl DB.applyInsert db)
        | some msg => Except.error msg := by
  induction stmts with
  | nil => intro db i; rfl
  | cons stmt rest ih =>
    intro db i
    rw [List.length_cons, List.range'_succ, List.findSome?_cons]
    cases h : oracle i with
    | some msg =>
      simp only [execInserts, h]
    | none =>
      simp only [execInserts, h, List.foldl_cons]
      rw [ih]

/-- Folding the candidate inserts of one step appends exactly that step's
candidate rows. -/
theorem foldl_applyInsert_candidates (stepId : String)
    (cs : List CandidatePayload) :
    ∀ (db : DB),
    (cs.map fun c => InsertStmt.insertCandidate (candidateRowOf stepId c)).foldl
        DB.applyInsert db
      = { db with candidates := db.candidates ++ cs.map (candidateRowOf stepId) } := by
  induction cs with
  | nil => intro db; simp
  | cons c rest ih =>
    intro db
    obtain ⟨r0, s0, c0⟩ := db
    rw [List.map_cons, List.foldl_cons]
    have e1 : DB.applyInsert ⟨r0, s0, c0⟩
        (InsertStmt.insertCandidate (candidateRowOf stepId c))
        = ⟨r0, s0, c0 ++ [candidateRowOf stepId c]⟩ := rfl
    rw [e1, ih]
    simp

/-- Folding the per-step inserts appends, for each step in order, that
step's row and then its candidate rows. -/
theorem foldl_applyInsert_steps (runId : String) (steps : List StepPayload) :
    ∀ (db : DB),
    (steps.flatMap fun s =>
        InsertStmt.insertStep (stepRowOf runId s) ::
          s.candidates.map fun c =>
            InsertStmt.insertCandidate (candidateRowOf s.id c)).foldl
        DB.applyInsert db
      = { db with
          steps := db.steps ++ steps.map (stepRowOf runId),
          candidates := db.candidates ++
            steps.flatMap fun s => s.candidates.map (candidateRowOf s.id) } := by
  induction steps with
  | nil => intro db; simp
  | cons s rest ih =>
    intro db
    obtain ⟨r0, s0, c0⟩ := db
    rw [List.flatMap_cons, List.foldl_append, List.foldl_cons]
    have e1 : DB.applyInsert ⟨r0, s0, c0⟩
        (InsertStmt.insertStep (stepRowOf runId s))
        = ⟨r0, s0 ++ [stepRowOf runId s], c0⟩ := rfl
    rw [e1, foldl_applyInsert_candidates, ih]
    simp

/-- Folding the whole insert sequence of a payload produces exactly the
fully committed store. -/
theorem foldl_insertsOf (db : DB) (p : RunPayload) :
    (insertsOf p).foldl DB.applyInsert db = committedDB db p := by
  unfold insertsOf committedDB
  rw [List.foldl_cons]
  obtain ⟨r0, s0, c0⟩ := db
  have e1 : DB.applyInsert ⟨r0, s0, c0⟩ (InsertStmt.insertRun (runRowOf p))
      = ⟨r0 ++ [runRowOf p], s0, c0⟩ := rfl
  rw [e1, foldl_applyInsert_steps]

/-- C2: `POST /runs` is all-or-nothing.  If no insert fails, the response is
`201 {success:true, runId}` and the store afterwards holds exactly the old
rows plus the run row, the step rows in payload order and their candidate
rows; if any insert fails, the store is unchanged (rollback) and the
response is `500 {success:false, error: message}` with the first failing
insert's message. -/
theorem postRuns_atomic (db : DB) (p : RunPayload)
    (oracle : Nat → Option String) :
    postRuns db p oracle
      = match firstFailure oracle (insertsOf p).length with
        | none => (committedDB db p, successResponse p.id)
        | some msg => (db, failureResponse msg) := by
  unfold postRuns firstFailure
  rw [List.range_eq_range', execInserts_spec]
  cases h : (List.range' 0 (insertsOf p).length).findSome? oracle with
  | none => simp only [foldl_insertsOf]
  | some msg => rfl

end XRay

namespace XRay

/-- The SQL `WHERE` clause passes exactly the eligible steps: both counts
present, `candidates_in` positive, rate at or above the threshold (a step
with `candidates_in = 0` or a missing count is excluded, never an error). -/
theorem wherePasses_iff (t : ℚ) (s : StepRow) :
    wherePasses t s = true ↔ eligibleStep t s := by
  unfold wherePasses eligibleStep
  cases hci : s.candidates_in <;> cases hco : s.candidates_out <;> simp

/-- Membership in the filtered join, characterized against the tables. -/
theorem mem_joinedRows (db : DB) (t : ℚ) (row : EliminationRow) :
    row ∈ joinedRows db t ↔
      ∃ r ∈ db.runs, ∃ s ∈ db.steps, s.run_id = r.id ∧ eligibleStep t s ∧
        row = selectElimination r s := by
  unfold joinedRows
  simp only [List.mem_flatMap, List.mem_map, List.mem_filter,
    decide_eq_true_eq]
  constructor
  · rintro ⟨r, hr, s, ⟨⟨hs, hrel⟩, hwp⟩, hrow⟩
    exact ⟨r, hr, s, hs, hrel, (wherePasses_iff t s).mp hwp, hrow.symm⟩
  · rintro ⟨r, hr, s, hs, hrel, hel, hrow⟩
    exact ⟨r, hr, s, ⟨⟨hs, hrel⟩, (wherePasses_iff t s).mpr hel⟩, hrow.symm⟩

/-- C4: with `minEliminationRate` present, `POST /runs/query` returns
exactly the steps with positive `candidates_in` (zero or missing counts are
excluded, never an error) whose elimination rate meets the threshold,
joined with the owning run's identifying fields, ordered by elimination
rate descending and capped at 100 rows; with it absent, the most recent
runs, ordered by start time descending and capped at 50. -/
theorem runsQuery_spec (db : DB) (t : ℚ) :
    (∀ row ∈ (runsQuery db (some t)).stepRows,
        ∃ r ∈ db.runs, ∃ s ∈ db.steps, s.run_id = r.id ∧ eligibleStep t s ∧
          row = selectElimination r s) ∧
    List.Pairwise rateGE (runsQuery db (some t)).stepRows ∧
    (runsQuery db (some t)).stepRows.length ≤ 100 ∧
    ((joinedRows db t).length ≤ 100 →
        (runsQuery db (some t)).stepRows.Perm (joinedRows db t)) ∧
    List.Pairwise startedGE (runsQuery db none).runRows ∧
    (runsQuery db none).runRows.length ≤ 50 ∧
    (db.runs.length ≤ 50 → (runsQuery db none).runRows.Perm db.runs) := by
  have hperm := List.perm_insertionSort rateGE (joinedRows db t)
  have hpermRuns := List.perm_insertionSort startedGE db.runs
  refine ⟨?_, ?_, ?_, ?_, ?_, ?_, ?_⟩
  · intro row hrow
    have h1 : row ∈ List.insertionSort rateGE (joinedRows db t) :=
      List.mem_of_mem_take hrow
    exact (mem_joinedRows db t row).mp (hperm.mem_iff.mp h1)
  · exact List.Pairwise.sublist (List.take_sublist _ _)
      (List.sorted_insertionSort rateGE (joinedRows db t))
  · show ((List.insertionSort rateGE (joinedRows db t)).take 100).length ≤ 100
    rw [List.length_take]
    exact min_le_left 100 _
  · intro hlen
    have hlen2 : (List.insertionSort rateGE (joinedRows db t)).length ≤ 100 := by
      rw [hperm.length_eq]; exact hlen
    show (List.insertionSort rateGE (joinedRows db t)).take 100
        |>.Perm (joinedRows db t)
    rw [List.take_of_length_le hlen2]
    exact hperm
  · exact List.Pairwise.sublist (List.take_sublist _ _)
      (List.sorted_insertionSort startedGE db.runs)
  · show ((List.insertionSort startedGE db.runs).take 50).length ≤ 50
    rw [List.length_take]
    exact min_le_left 50 _
  · intro hlen
    have hlen2 : (List.insertionSort startedGE db.runs).length ≤ 50 := by
      rw [hpermRuns.length_eq]; exact hlen
    show (List.insertionSort startedGE db.runs).take 50 |>.Perm db.runs
    rw [List.take_of_length_le hlen2]
    exact hpermRuns

end XRay

namespace XRay

/-- Witness for C4 at a concrete store (the spec's end-to-end scenario plus
an excluded `candidates_in = 0` step and an excluded countless step): the
`450 → 30` step's row is returned, the result is exactly the eligible
joined rows, and the default branch returns the stored runs. -/
theorem runsQuery_spec_witness :
    (joinedRows dbZero (9 / 10)).length ≤ 100 ∧
    (runsQuery dbZero (some (9 / 10))).stepRows.Perm (joinedRows dbZero (9 / 10)) ∧
    selectElimination runRow1 stepRow2 ∈ (runsQuery dbZero (some (9 / 10))).stepRows ∧
    (∃ r ∈ dbZero.runs, ∃ s ∈ dbZero.steps, s.run_id = r.id ∧
        eligibleStep (9 / 10) s ∧
        selectElimination runRow1 stepRow2 = selectElimination r s) ∧
    dbZero.runs.length ≤ 50 ∧
    (runsQuery dbZero none).runRows.Perm dbZero.runs := by
  have h := runsQuery_spec dbZero (9 / 10)
  have hj : joinedRows dbZero (9 / 10)
      = [selectElimination runRow1 stepRow1, selectElimination runRow1 stepRow2] := by
    unfold joinedRows dbZero wherePasses runRow1 stepRow1 stepRow2 stepRow3 stepRow0
    norm_num [List.filter_cons]
  have hlen : (joinedRows dbZero (9 / 10)).length ≤ 100 := by
    rw [hj]; norm_num
  have hperm := h.2.2.2.1 hlen
  have hm : selectElimination runRow1 stepRow2
      ∈ (runsQuery dbZero (some (9 / 10))).stepRows := by
    rw [hperm.mem_iff, hj]; simp
  exact ⟨hlen, hperm, hm, h.1 _ hm, by norm_num [dbZero],
    h.2.2.2.2.2.2 (by norm_num [dbZero])⟩

end XRay
